import Mathlib

/-!
Shallow embedding of the guild-bank ledger of `src/cogs/bank.py` (class `Bank`).

Python strings are modelled as lists of characters (`PyStr`); the SQLAlchemy-style
store behind `TransactionDB` / `session.query(TransactionData)` is modelled as a
list of records in insertion order together with a monotone id counter; calls to
`datetime.now(tz=timezone.utc)` are modelled by a monotone clock counter in the
state (each call reads the counter and advances it, so two successive calls give
two distinct instants, as two successive `now()` readings generally do).

The module `src/cogs/models` (defining `TransactionDB`, the `TransactionData`
columns and `UserData`) is not part of the sources; where its behaviour matters
it is modelled from the spec, as noted on each definition.
-/

namespace DndBank

/-- The five denominations, `CURRENCIES = ('platinum', 'gold', 'electrum', 'silver', 'copper')`
in `bank.py` line 12. -/
inductive Currency
  | platinum
  | gold
  | electrum
  | silver
  | copper
deriving DecidableEq, Repr

/-- The tuple `CURRENCIES`, in source order. -/
def CURRENCIES : List Currency :=
  [.platinum, .gold, .electrum, .silver, .copper]

/-- First letter of each currency name: `CURRENCIES_SHORT = tuple(s[0] for s in CURRENCIES)`
(`bank.py` line 13), i.e. `('p', 'g', 'e', 's', 'c')`. -/
def shortOf : Currency → Char
  | .platinum => 'p'
  | .gold => 'g'
  | .electrum => 'e'
  | .silver => 's'
  | .copper => 'c'

/-- Lookup `CURRENCIES[CURRENCIES_SHORT.index(c)]` when `c in CURRENCIES_SHORT`, `none` otherwise
(`bank.py` lines 105-108). -/
def charToCurrency : Char → Option Currency
  | 'p' => some .platinum
  | 'g' => some .gold
  | 'e' => some .electrum
  | 's' => some .silver
  | 'c' => some .copper
  | _ => none

/-- A Python `str`, modelled as its list of characters. -/
abbrev PyStr := List Char

/-- A row of the transaction table. Column names follow the keyword arguments of
`TransactionDB.create_new` in `bank.py` lines 86-98; `_id` is the primary key used by
`filter_by(_id=...)` and `date` is the instant recorded at creation (clock tick).
The spec's `range` query is by receiver, so the `account_nr` column filtered by
`print_log` is modelled as the `receiver_id` column (spec-modelled: the models
module defining the columns is absent from the sources). -/
structure TransactionData where
  _id : Nat
  date : Nat
  user_id : Int
  receiver_id : Int
  sender_id : Int
  description : PyStr
  confirmed : Bool
  platinum : Option Int
  gold : Option Int
  electrum : Option Int
  silver : Option Int
  copper : Option Int
deriving DecidableEq, Repr

/-- Model of `getattr(transaction, currency)` for a currency column. -/
def getCur (t : TransactionData) : Currency → Option Int
  | .platinum => t.platinum
  | .gold => t.gold
  | .electrum => t.electrum
  | .silver => t.silver
  | .copper => t.copper

/-- Model of `setattr(transaction, currency, amount)` for a currency column. -/
def setCur (t : TransactionData) : Currency → Option Int → TransactionData
  | .platinum, v => { t with platinum := v }
  | .gold, v => { t with gold := v }
  | .electrum, v => { t with electrum := v }
  | .silver, v => { t with silver := v }
  | .copper, v => { t with copper := v }

/-- The ledger store plus the ambient clock.
Modelled from the spec: `LedgerStore.create` "assigns a new unique id, persists,
returns the stored record", ids are "monotonically assigned, never reused", and
`query` returns records in insertion order; hence a list in insertion order and
a monotone `nextId` counter. `clock` models `datetime.now(tz=timezone.utc)`. -/
structure BankState where
  transactions : List TransactionData
  nextId : Nat
  clock : Nat
deriving DecidableEq, Repr

/-- The messages `ctx.send`-ed on the failure paths of `bank.py`, plus the Python
exceptions those paths can raise. -/
inductive BankError
  /-- Message 'Please provide a transaction string and a description' (line 78). -/
  | missingInput
  /-- Message 'Invalid character in transaction ' + c (line 83). -/
  | invalidCharacter (c : Char)
  /-- Exception `ValueError` raised by `int(coinstring[:-1])` (line 103). -/
  | valueError
  /-- Message 'Invalid currency detected:' + c (line 106). -/
  | invalidCurrency (c : Char)
  /-- Exception `NoResultFound` raised by `.one()` on an empty result (line 215). -/
  | notFound
  /-- Exception `MultipleResultsFound` raised by `.one()` on several results (line 215). -/
  | multipleResults
  /-- Message 'You can only send positive amounts' (line 268). -/
  | onlyPositive
  /-- Message 'That user does not have an account' (line 272). -/
  | noAccount
  /-- Exception `TypeError` raised by a call whose arguments do not match the callee's
  signature (the `process_transaction` call on line 274-276 passes no
  `receiver_id` and an unexpected keyword `send`). -/
  | typeError
deriving DecidableEq, Repr

/-- Result of `process_transaction`: the record(s) created and shown via
`format_transaction`, or the error message sent / exception raised. -/
inductive Outcome
  | ok (primary : TransactionData) (mirror : Option TransactionData)
  | err (e : BankError)
deriving DecidableEq, Repr

/-- The character test of `bank.py` line 82:
`(c not in ',+-1234567890') and (c not in CURRENCIES_SHORT)` rejects, so a
character is valid iff it lies in `',+-1234567890'` or is a currency letter. -/
def validChar (c : Char) : Bool :=
  [',', '+', '-', '1', '2', '3', '4', '5', '6', '7', '8', '9', '0'].contains c
    || (CURRENCIES.map shortOf).contains c

/-- Digit run accepted by Python `int`: one or more decimal digits. -/
def pyIntDigits : PyStr → Option Nat
  | [] => none
  | [c] => if c.isDigit then some (c.toNat - '0'.toNat) else none
  | c :: rest =>
    if c.isDigit then
      (pyIntDigits rest).map (fun n => (c.toNat - '0'.toNat) * 10 ^ rest.length + n)
    else none

/-- Python `int(s)` on the strings reachable here (no whitespace, no underscores):
an optional single sign followed by at least one digit; anything else raises
`ValueError`, modelled as `none`. -/
def pyInt (s : PyStr) : Option Int :=
  match s with
  | '-' :: rest => (pyIntDigits rest).map (fun n => -(n : Int))
  | '+' :: rest => (pyIntDigits rest).map (fun n => (n : Int))
  | l => (pyIntDigits l).map (fun n => (n : Int))

/-- Python `s.split(sep)` with an explicit one-character separator:
`''.split(',') == ['']`, `','.split(',') == ['', '']`, etc. -/
def pySplit (sep : Char) : PyStr → List PyStr
  | [] => [[]]
  | c :: rest =>
    if c = sep then [] :: pySplit sep rest
    else
      match pySplit sep rest with
      | s :: ss => (c :: s) :: ss
      | [] => [[c]]

/-- The record as first persisted by `TransactionDB.create_new` (`bank.py` lines 86-98):
every currency column is `None`. Spec-modelled persistence: `create` assigns the
next id and appends; the later `setattr` mutations of this row are modelled by
storing the row's final value (the row is mutated before any other observation). -/
def newRecord (id clock : Nat) (author receiver sender : Int) (desc : PyStr)
    (conf : Bool) : TransactionData :=
  { _id := id, date := clock, user_id := author, receiver_id := receiver,
    sender_id := sender, description := desc, confirmed := conf,
    platinum := none, gold := none, electrum := none, silver := none, copper := none }

/-- The entry loop of `bank.py` lines 102-109, acting on the freshly created row:
for each `coinstring`, `amount = int(coinstring[:-1])` (a `ValueError` aborts the
command, leaving the row as mutated so far), then the trailing character must be
a currency letter (else the error message is sent and the command returns, again
leaving the row), else `setattr(transaction, currency, amount)`. -/
def applyCoinStrings : List PyStr → TransactionData → TransactionData × Option BankError
  | [], t => (t, none)
  | cs :: rest, t =>
    match pyInt cs.dropLast with
    | none => (t, some .valueError)
    | some amount =>
      match cs.getLast? with
      | none => (t, some (.invalidCurrency ' '))
      | some ch =>
        match charToCurrency ch with
        | none => (t, some (.invalidCurrency ch))
        | some cur => applyCoinStrings rest (setCur t cur (some amount))

/-- The mirror loop of `bank.py` lines 125-128: `if amount:` skips `None` and `0`,
otherwise stores `amount * -1` in the second row. -/
def negEntry : Option Int → Option Int
  | none => none
  | some a => if a = 0 then none else some (-a)

/-- The second record of `bank.py` lines 112-128. Note lines 115-116:
`receiver_id=sender_id, sender_id=sender_id` — both fields are set to the sender. -/
def mirrorRecord (t1 : TransactionData) (id clock : Nat) : TransactionData :=
  { _id := id, date := clock, user_id := t1.user_id,
    receiver_id := t1.sender_id, sender_id := t1.sender_id,
    description := t1.description, confirmed := t1.confirmed,
    platinum := negEntry t1.platinum, gold := negEntry t1.gold,
    electrum := negEntry t1.electrum, silver := negEntry t1.silver,
    copper := negEntry t1.copper }

/-- Model of `Bank.process_transaction` (`bank.py` lines 74-133).
Checks description/amount-string presence and character validity, then creates
the primary row, runs the entry loop, and on success creates the mirror row when
`sender_id != receiver_id`. -/
def process_transaction (author sender receiver : Int) (ts desc : PyStr)
    (conf : Bool) (st : BankState) : BankState × Outcome :=
  if desc = [] ∨ ts = [] then (st, .err .missingInput)
  else
    match ts.find? (fun c => !(validChar c)) with
    | some c => (st, .err (.invalidCharacter c))
    | none =>
      match applyCoinStrings (pySplit ',' ts)
          (newRecord st.nextId st.clock author receiver sender desc conf) with
      | (t1, some e) =>
        ({ transactions := st.transactions ++ [t1],
           nextId := st.nextId + 1, clock := st.clock + 1 }, .err e)
      | (t1, none) =>
        if sender ≠ receiver then
          ({ transactions := st.transactions
               ++ [t1, mirrorRecord t1 (st.nextId + 1) (st.clock + 1)],
             nextId := st.nextId + 2, clock := st.clock + 2 },
           .ok t1 (some (mirrorRecord t1 (st.nextId + 1) (st.clock + 1))))
        else
          ({ transactions := st.transactions ++ [t1],
             nextId := st.nextId + 1, clock := st.clock + 1 }, .ok t1 none)

/-- Model of `getattr(transaction, c) or 0` (`bank.py` line 45). -/
def orZero : Option Int → Int
  | none => 0
  | some a => a

/-- Model of `Bank.get_balance` (`bank.py` lines 37-46): one accumulator per currency,
initialised to 0, summed over `TransactionDB.query_all(receiver_id=account,
confirmed=True)` (spec-modelled query: all matching rows in insertion order). -/
def get_balance (account : Int) (st : BankState) (c : Currency) : Int :=
  (st.transactions.filter (fun t => t.receiver_id == account && t.confirmed)).foldl
    (fun acc t => acc + orZero (getCur t c)) 0

/-- Ordering of rows by primary key, for `order_by(TransactionData._id.desc())`. -/
def tle (a b : TransactionData) : Prop := a._id ≤ b._id

instance : DecidableRel tle := fun a b => Nat.decLe a._id b._id

instance : IsTotal TransactionData tle := ⟨fun a b => Nat.le_total a._id b._id⟩

instance : IsTrans TransactionData tle := ⟨fun _ _ _ h1 h2 => Nat.le_trans h1 h2⟩

/-- Model of `Bank.print_log` (`bank.py` lines 135-147): the rows matching the account
(spec-modelled: the `account_nr` column is the receiver column), ordered by id
descending, limited to `num+start`, sliced `[start:num+start]`, then `reversed`
for display. Returns the displayed sequence in display order. -/
def print_log (start num : Nat) (account_nr : Int) (st : BankState) :
    List TransactionData :=
  let matched := st.transactions.filter (fun t => t.receiver_id == account_nr)
  let descOrder := (List.insertionSort tle matched).reverse
  (((descOrder.take (num + start)).drop start).take num).reverse

/-- The write `transaction.confirmed = True` of `bank.py` line 216, applied to the
row selected by `filter_by(_id=transaction_id)`. -/
def confirmRow (tid : Nat) (t : TransactionData) : TransactionData :=
  if t._id == tid then { t with confirmed := true } else t

/-- Model of `Bank.bank_confirm_transaction` (`bank.py` lines 212-217):
`.one()` raises `NoResultFound` / `MultipleResultsFound` unless exactly one row
matches the id; otherwise `confirmed = True` is written to that row. -/
def bank_confirm_transaction (tid : Nat) (st : BankState) :
    BankState × Option BankError :=
  match st.transactions.filter (fun t => t._id == tid) with
  | [] => (st, some .notFound)
  | [_] =>
    ({ st with transactions := st.transactions.map (confirmRow tid) }, none)
  | _ => (st, some .multipleResults)

/-- Model of `Bank.account_send_money` (`bank.py` lines 263-276): reject any amount string
containing `'-'`; reject a receiver with no row in the user table (spec-modelled:
`UserData` lives in the absent models module; the table is modelled as the list
of existing user ids); otherwise the source calls `process_transaction` with
arguments that do not match its signature (no `receiver_id`, unexpected keyword
`send`), which raises `TypeError` before any ledger write. -/
def account_send_money (author receiver : Int) (ts desc : PyStr)
    (users : List Int) (st : BankState) : BankState × Option BankError :=
  if '-' ∈ ts then (st, some .onlyPositive)
  else if receiver ∈ users then (st, some .typeError)
  else (st, some .noAccount)

/-- Parse of a single `coinstring` as the entry loop would:
`int(coinstring[:-1])` and the trailing currency letter. -/
def parseEntry (cs : PyStr) : Option (Int × Currency) :=
  match pyInt cs.dropLast, cs.getLast? with
  | some a, some ch => (charToCurrency ch).map (fun c => (a, c))
  | _, _ => none

/-- The amount of the last entry of the list naming currency `c`, if any. -/
def lastAmount : List PyStr → Currency → Option Int
  | [], _ => none
  | cs :: rest, c =>
    match lastAmount rest c with
    | some a => some a
    | none =>
      match parseEntry cs with
      | some (a, c') => if c' = c then some a else none
      | none => none

/-- A two-row sample ledger: both rows belong to account 0, row 0 created before row 1. -/
def sampleTwoRecords : BankState :=
  ⟨[{ _id := 0, date := 0, user_id := 7, receiver_id := 0, sender_id := 0,
      description := ['a'], confirmed := true, platinum := none, gold := some 1,
      electrum := none, silver := none, copper := none },
    { _id := 1, date := 1, user_id := 7, receiver_id := 0, sender_id := 0,
      description := ['b'], confirmed := true, platinum := none, gold := some 2,
      electrum := none, silver := none, copper := none }], 2, 2⟩

/-- The primary record produced by processing `"2g,3g"` for account 0 on an empty store. -/
def dupRecord : TransactionData :=
  { _id := 0, date := 0, user_id := 7, receiver_id := 0, sender_id := 0,
    description := ['x'], confirmed := true, platinum := none, gold := some 3,
    electrum := none, silver := none, copper := none }

/-- The primary record produced by sending `"2g"` from account 1 to account 2 on an
empty store (actor 7). -/
def pairPrimary : TransactionData :=
  { _id := 0, date := 0, user_id := 7, receiver_id := 2, sender_id := 1,
    description := ['p', 'a', 'y'], confirmed := true, platinum := none, gold := some 2,
    electrum := none, silver := none, copper := none }

/-- The mirror record created alongside `pairPrimary`. -/
def pairMirror : TransactionData :=
  { _id := 1, date := 1, user_id := 7, receiver_id := 1, sender_id := 1,
    description := ['p', 'a', 'y'], confirmed := true, platinum := none, gold := some (-2),
    electrum := none, silver := none, copper := none }

/- ------------------------------------------------------------------ -/
/- Helper lemmas                                                      -/
/- ------------------------------------------------------------------ -/

theorem getCur_setCur (t : TransactionData) (cur c : Currency) (v : Option Int) :
    getCur (setCur t cur v) c = if cur = c then v else getCur t c := by
  cases cur <;> cases c <;> simp [getCur, setCur]

theorem setCur_preserves (t : TransactionData) (cur : Currency) (v : Option Int) :
    (setCur t cur v)._id = t._id ∧ (setCur t cur v).date = t.date
  ∧ (setCur t cur v).user_id = t.user_id ∧ (setCur t cur v).receiver_id = t.receiver_id
  ∧ (setCur t cur v).sender_id = t.sender_id ∧ (setCur t cur v).description = t.description
  ∧ (setCur t cur v).confirmed = t.confirmed := by
  cases cur <;> simp [setCur]

theorem applyCoinStrings_err (es : List PyStr) (t : TransactionData) (e : BankError)
    (h : (applyCoinStrings es t).2 = some e) :
    e = .valueError ∨ ∃ c, e = .invalidCurrency c := by
  induction es generalizing t with
  | nil => simp [applyCoinStrings] at h
  | cons cs rest ih =>
    simp only [applyCoinStrings] at h
    split at h
    · simp at h; exact Or.inl h.symm
    · split at h
      · simp at h; exact Or.inr ⟨' ', h.symm⟩
      · split at h
        · simp at h; exact Or.inr ⟨_, h.symm⟩
        · exact ih _ h

theorem applyCoinStrings_preserves (es : List PyStr) (t : TransactionData) :
    ((applyCoinStrings es t).1)._id = t._id ∧ ((applyCoinStrings es t).1).date = t.date
  ∧ ((applyCoinStrings es t).1).user_id = t.user_id
  ∧ ((applyCoinStrings es t).1).receiver_id = t.receiver_id
  ∧ ((applyCoinStrings es t).1).sender_id = t.sender_id
  ∧ ((applyCoinStrings es t).1).description = t.description
  ∧ ((applyCoinStrings es t).1).confirmed = t.confirmed := by
  induction es generalizing t with
  | nil => simp [applyCoinStrings]
  | cons cs rest ih =>
    simp only [applyCoinStrings]
    split
    · simp
    · rename_i amount h1
      split
      · simp
      · rename_i ch h2
        split
        · simp
        · rename_i cur h3
          have hp := setCur_preserves t cur (some amount)
          have hi := ih (setCur t cur (some amount))
          exact ⟨hi.1.trans hp.1, hi.2.1.trans hp.2.1, hi.2.2.1.trans hp.2.2.1,
                 hi.2.2.2.1.trans hp.2.2.2.1, hi.2.2.2.2.1.trans hp.2.2.2.2.1,
                 hi.2.2.2.2.2.1.trans hp.2.2.2.2.2.1, hi.2.2.2.2.2.2.trans hp.2.2.2.2.2.2⟩

theorem orZero_negEntry (x : Option Int) : orZero (negEntry x) = - orZero x := by
  cases x with
  | none => simp [negEntry, orZero]
  | some a =>
    by_cases h : a = 0 <;> simp [negEntry, orZero, h]

theorem getCur_newRecord (id clock : Nat) (author receiver sender : Int)
    (desc : PyStr) (conf : Bool) (c : Currency) :
    getCur (newRecord id clock author receiver sender desc conf) c = none := by
  cases c <;> rfl

theorem getCur_mirrorRecord (t : TransactionData) (id clock : Nat) (c : Currency) :
    getCur (mirrorRecord t id clock) c = negEntry (getCur t c) := by
  cases c <;> rfl

theorem foldl_add_sum (f : TransactionData → Int) (l : List TransactionData) (a : Int) :
    l.foldl (fun acc t => acc + f t) a = a + (l.map f).sum := by
  induction l generalizing a with
  | nil => simp
  | cons t rest ih => simp [ih, add_assoc]

theorem sum_map_filter (p : TransactionData → Bool) (f : TransactionData → Int)
    (l : List TransactionData) :
    ((l.filter p).map f).sum = (l.map (fun t => if p t then f t else 0)).sum := by
  induction l with
  | nil => rfl
  | cons t rest ih => by_cases h : p t <;> simp [h, ih]

/-- Rewriting of `get_balance` as a sum over all rows with an indicator, used by several claims. -/
theorem get_balance_eq_sum (account : Int) (st : BankState) (c : Currency) :
    get_balance account st c
      = (st.transactions.map (fun t =>
          if t.receiver_id = account ∧ t.confirmed = true then orZero (getCur t c) else 0)).sum := by
  unfold get_balance
  rw [foldl_add_sum, zero_add, sum_map_filter]
  apply congrArg List.sum
  apply List.map_congr_left
  intro t _
  by_cases h1 : t.receiver_id = account <;> by_cases h2 : t.confirmed <;> simp [h1, h2]

/- ------------------------------------------------------------------ -/
/- Claims                                                             -/
/- ------------------------------------------------------------------ -/

/-- C3: `balance(account_id)` maps each of the five denominations to the sum,
starting from zero, of that denomination's amounts over exactly the transactions
with `confirmed = true` and `receiver_account = account_id`; unconfirmed
transactions never contribute to any accumulator. -/
theorem C3_balance_is_confirmed_receiver_sum (account : Int) (st : BankState) (c : Currency) :
    (get_balance account st c
       = (st.transactions.map (fun t =>
           if t.receiver_id = account ∧ t.confirmed = true then orZero (getCur t c) else 0)).sum)
  ∧ (∀ (pre post : List TransactionData) (t : TransactionData) (n k n2 k2 : Nat),
       t.confirmed = false →
       get_balance account ⟨pre ++ t :: post, n, k⟩ c
         = get_balance account ⟨pre ++ post, n2, k2⟩ c) := by
  constructor
  · exact get_balance_eq_sum account st c
  · intro pre post t n k n2 k2 ht
    rw [get_balance_eq_sum, get_balance_eq_sum]
    simp [ht]

/-- C3 witness: on the sample ledger, the gold balance of account 0 is the sum over
the confirmed rows, and inserting an unconfirmed row in front changes nothing. -/
theorem C3_witness :
    (get_balance 0 sampleTwoRecords .gold
      = (sampleTwoRecords.transactions.map (fun t =>
          if t.receiver_id = 0 ∧ t.confirmed = true then orZero (getCur t .gold) else 0)).sum)
  ∧ get_balance 0 ⟨[] ++ newRecord 9 9 7 0 0 ['z'] false :: sampleTwoRecords.transactions,
        3, 3⟩ .gold
      = get_balance 0 ⟨[] ++ sampleTwoRecords.transactions, 2, 2⟩ .gold :=
  ⟨(C3_balance_is_confirmed_receiver_sum 0 sampleTwoRecords .gold).1,
   (C3_balance_is_confirmed_receiver_sum 0 sampleTwoRecords .gold).2 []
     sampleTwoRecords.transactions (newRecord 9 9 7 0 0 ['z'] false) 3 3 2 2 rfl⟩

/-- C9: `balance` is total over every store state: a stored transaction whose
per-denomination amounts are all absent (`None`) contributes zero to every balance
in every denomination, and every record is initially created with all five
denominations unset. -/
theorem C9_blank_amounts_contribute_zero (t : TransactionData)
    (h : ∀ c, getCur t c = none) :
    (∀ (account : Int) (c : Currency) (pre post : List TransactionData) (n k n2 k2 : Nat),
        get_balance account ⟨pre ++ t :: post, n, k⟩ c
          = get_balance account ⟨pre ++ post, n2, k2⟩ c)
  ∧ (∀ (id clock : Nat) (author receiver sender : Int) (desc : PyStr) (conf : Bool)
        (c : Currency),
        getCur (newRecord id clock author receiver sender desc conf) c = none) := by
  constructor
  · intro account c pre post n k n2 k2
    rw [get_balance_eq_sum, get_balance_eq_sum]
    simp [h c, orZero]
  · intro id clock author receiver sender desc conf c
    exact getCur_newRecord id clock author receiver sender desc conf c

/-- C9 witness: a freshly created (all-`None`) record inserted into the sample ledger
leaves the gold balance of account 0 unchanged. -/
theorem C9_witness :
    get_balance 0 ⟨[] ++ newRecord 5 5 7 0 0 ['y'] true :: sampleTwoRecords.transactions, 6, 6⟩ .gold
      = get_balance 0 ⟨[] ++ sampleTwoRecords.transactions, 2, 2⟩ .gold :=
  (C9_blank_amounts_contribute_zero (newRecord 5 5 7 0 0 ['y'] true)
    (getCur_newRecord 5 5 7 0 0 ['y'] true)).1 0 .gold [] sampleTwoRecords.transactions 6 6 2 2

theorem confirmRow_id (tid : Nat) (t : TransactionData) : (confirmRow tid t)._id = t._id := by
  unfold confirmRow
  by_cases ht : t._id == tid <;> simp [ht]

theorem confirmRow_idem (tid : Nat) (t : TransactionData) :
    confirmRow tid (confirmRow tid t) = confirmRow tid t := by
  unfold confirmRow
  by_cases ht : t._id == tid <;> simp [ht]

theorem filter_map_confirmRow (tid : Nat) (l : List TransactionData) :
    (l.map (confirmRow tid)).filter (fun t => t._id == tid)
      = (l.filter (fun t => t._id == tid)).map (confirmRow tid) := by
  rw [List.filter_map]
  have : ((fun t : TransactionData => t._id == tid) ∘ confirmRow tid)
      = (fun t : TransactionData => t._id == tid) := by
    funext t
    simp [Function.comp, confirmRow_id]
  rw [this]

/-- C7: for every transaction id present (exactly once) in the store, calling
`confirm` twice in succession yields the same final store state as calling it
once, the record is confirmed afterwards, and neither call raises an error. -/
theorem C7_confirm_idempotent (tid : Nat) (st : BankState)
    (h : (st.transactions.filter (fun t => t._id == tid)).length = 1) :
    bank_confirm_transaction tid (bank_confirm_transaction tid st).1
        = ((bank_confirm_transaction tid st).1, none)
  ∧ (bank_confirm_transaction tid st).2 = none
  ∧ (∀ t ∈ (bank_confirm_transaction tid st).1.transactions,
        t._id = tid → t.confirmed = true) := by
  obtain ⟨u, hu⟩ := List.length_eq_one.mp h
  have hone : bank_confirm_transaction tid st
      = ({ st with transactions := st.transactions.map (confirmRow tid) }, none) := by
    unfold bank_confirm_transaction
    rw [hu]
  have hmapmap : (st.transactions.map (confirmRow tid)).map (confirmRow tid)
      = st.transactions.map (confirmRow tid) := by
    rw [List.map_map]
    exact List.map_congr_left (fun t _ => confirmRow_idem tid t)
  have htwo : bank_confirm_transaction tid
      ({ st with transactions := st.transactions.map (confirmRow tid) } : BankState)
      = ({ st with transactions := st.transactions.map (confirmRow tid) }, none) := by
    unfold bank_confirm_transaction
    rw [filter_map_confirmRow, hu]
    simp [hmapmap]
  refine ⟨?_, ?_, ?_⟩
  · rw [hone, htwo]
  · rw [hone]
  · rw [hone]
    intro t ht htid
    obtain ⟨v, hv, rfl⟩ := List.mem_map.mp ht
    unfold confirmRow
    by_cases hvt : v._id == tid
    · simp [hvt]
    · exfalso
      rw [confirmRow_id] at htid
      exact hvt (beq_iff_eq.mpr htid)

/-- C7 witness: confirming transaction 1 of the sample ledger twice equals confirming
it once, with no error and the record confirmed. -/
theorem C7_witness :
    bank_confirm_transaction 1 (bank_confirm_transaction 1 sampleTwoRecords).1
        = ((bank_confirm_transaction 1 sampleTwoRecords).1, none)
  ∧ (bank_confirm_transaction 1 sampleTwoRecords).2 = none
  ∧ (∀ t ∈ (bank_confirm_transaction 1 sampleTwoRecords).1.transactions,
        t._id = 1 → t.confirmed = true) :=
  C7_confirm_idempotent 1 sampleTwoRecords (by decide)

/-- C1 counterexample: the amount string `"2g,25"` fails validation (the entry `25`
has no denomination letter), the corresponding error is signalled, and yet the
ledger store has gained one record: the primary record is created before the
entries are parsed, so the error return leaves it behind. -/
theorem C1_counterexample :
    (process_transaction 7 1 2 ['2', 'g', ',', '2', '5'] ['p', 'a', 'y'] true ⟨[], 0, 0⟩).2
        = .err (.invalidCurrency '5')
  ∧ (process_transaction 7 1 2 ['2', 'g', ',', '2', '5'] ['p', 'a', 'y'] true
        ⟨[], 0, 0⟩).1.transactions.length = 1 := by
  decide

/-- C1 (amended): the empty-description/empty-amount-string error and the
invalid-character error are detected before any write and leave the ledger
unmodified; the unparsable-number and unrecognized-trailing-denomination errors
are detected only after the primary record has been created, and leave exactly
that one new record in the store. (Duplicate denominations and non-privileged
negative amounts are not validation errors in the code.) -/
theorem C1_amended (author sender receiver : Int) (ts desc : PyStr) (conf : Bool)
    (st : BankState) :
    (((process_transaction author sender receiver ts desc conf st).2 = .err .missingInput
        ∨ (∃ c, (process_transaction author sender receiver ts desc conf st).2
              = .err (.invalidCharacter c))) →
      (process_transaction author sender receiver ts desc conf st).1 = st)
  ∧ (((process_transaction author sender receiver ts desc conf st).2 = .err .valueError
        ∨ (∃ c, (process_transaction author sender receiver ts desc conf st).2
              = .err (.invalidCurrency c))) →
      ∃ t, (process_transaction author sender receiver ts desc conf st).1.transactions
            = st.transactions ++ [t]) := by
  unfold process_transaction
  split
  · refine ⟨fun _ => rfl, ?_⟩
    rintro (hx | ⟨c, hx⟩) <;> simp at hx
  · split
    · refine ⟨fun _ => rfl, ?_⟩
      rintro (hx | ⟨c, hx⟩) <;> simp at hx
    · rcases hap : applyCoinStrings (pySplit ',' ts)
          (newRecord st.nextId st.clock author receiver sender desc conf) with ⟨t1, e2⟩
      cases e2 with
      | some e =>
        refine ⟨?_, fun _ => ⟨t1, rfl⟩⟩
        rintro (hx | ⟨c, hx⟩) <;> simp at hx <;>
          rcases applyCoinStrings_err _ _ e (by rw [hap]) with he | ⟨c2, he⟩ <;>
          simp [he] at hx
      | none =>
        dsimp only
        split <;> refine ⟨?_, ?_⟩ <;> rintro (hx | ⟨c, hx⟩) <;> simp at hx

/-- C1 witness: an empty amount string is rejected before any write and leaves the
empty ledger empty, while the invalid-entry string `"2g,25"` leaves exactly one
new record behind. -/
theorem C1_witness :
    (process_transaction 7 1 2 [] ['p'] true ⟨[], 0, 0⟩).1 = ⟨[], 0, 0⟩
  ∧ ∃ t, (process_transaction 7 1 2 ['2', 'g', ',', '2', '5'] ['p'] true
        ⟨[], 0, 0⟩).1.transactions = (⟨[], 0, 0⟩ : BankState).transactions ++ [t] :=
  ⟨(C1_amended 7 1 2 [] ['p'] true ⟨[], 0, 0⟩).1 (Or.inl (by decide)),
   (C1_amended 7 1 2 ['2', 'g', ',', '2', '5'] ['p'] true ⟨[], 0, 0⟩).2
     (Or.inr ⟨'5', by decide⟩)⟩

/-- C2 counterexample: sending `"2g"` from account 1 to account 2 stores two records
whose `sender_id`s are `[1, 1]` — the claim requires the second record's
`sender_account` to be the first record's `receiver_account` (2) — and whose
creation instants are `[0, 1]`, two distinct clock readings rather than a
matching timestamp. -/
theorem C2_counterexample :
    ((process_transaction 7 1 2 ['2', 'g'] ['p', 'a', 'y'] true ⟨[], 0, 0⟩).1.transactions.map
        (fun t => t.sender_id) = [1, 1])
  ∧ ((process_transaction 7 1 2 ['2', 'g'] ['p', 'a', 'y'] true ⟨[], 0, 0⟩).1.transactions.map
        (fun t => t.date) = [0, 1])
  ∧ ((1 : Int) ≠ 2 ∧ (0 : Nat) ≠ 1) := by
  decide

/-- C2 (amended): a successful `create_transaction` with `sender ≠ receiver` stores
exactly two records with matching `description`, `actor_id` and `confirmed` state,
created at two successive clock instants (so their timestamps differ); the first
has `receiver_account = r` and `sender_account = s`, the second has
`receiver_account = s` and `sender_account = s` (not the first record's receiver),
and for every denomination the second record's amount, reading an absent entry
as zero, is the negation of the first record's. -/
theorem C2_amended (author s r : Int) (ts desc : PyStr) (conf : Bool) (st st2 : BankState)
    (t1 : TransactionData) (m : Option TransactionData)
    (hsr : s ≠ r)
    (h : process_transaction author s r ts desc conf st = (st2, .ok t1 m)) :
    ∃ t2, m = some t2
      ∧ st2.transactions = st.transactions ++ [t1, t2]
      ∧ t2.description = t1.description ∧ t2.user_id = t1.user_id
      ∧ t2.confirmed = t1.confirmed
      ∧ t1.receiver_id = r ∧ t1.sender_id = s
      ∧ t2.receiver_id = s ∧ t2.sender_id = s
      ∧ t2.date = t1.date + 1
      ∧ (∀ c, orZero (getCur t2 c) = - orZero (getCur t1 c)) := by
  unfold process_transaction at h
  split at h
  · exact absurd h (by simp)
  · split at h
    · exact absurd h (by simp)
    · rcases hap : applyCoinStrings (pySplit ',' ts)
          (newRecord st.nextId st.clock author r s desc conf) with ⟨u1, e2⟩
      rw [hap] at h
      cases e2 with
      | some e => simp at h
      | none =>
        dsimp only at h
        have hpre := applyCoinStrings_preserves (pySplit ',' ts)
          (newRecord st.nextId st.clock author r s desc conf)
        rw [hap] at hpre
        dsimp only at hpre
        obtain ⟨hid, hdate, huser, hrecv, hsend, hdesc2, hconf⟩ := hpre
        injection h with h1 h2
        injection h2 with h21 h22
        subst h21
        refine ⟨mirrorRecord u1 (st.nextId + 1) (st.clock + 1), h22.symm, ?_,
          rfl, rfl, rfl, hrecv, hsend, hsend, hsend, ?_, ?_⟩
        · rw [← h1]
        · rw [hdate]; rfl
        · intro c
          rw [getCur_mirrorRecord, orZero_negEntry]

/-- C2 witness: instantiation of the amended pair shape at the `"2g"` transfer from
account 1 to account 2 on an empty store. -/
theorem C2_witness :
    ∃ t2, (some pairMirror : Option TransactionData) = some t2
      ∧ (⟨[pairPrimary, pairMirror], 2, 2⟩ : BankState).transactions
          = (⟨[], 0, 0⟩ : BankState).transactions ++ [pairPrimary, t2]
      ∧ t2.description = pairPrimary.description ∧ t2.user_id = pairPrimary.user_id
      ∧ t2.confirmed = pairPrimary.confirmed
      ∧ pairPrimary.receiver_id = 2 ∧ pairPrimary.sender_id = 1
      ∧ t2.receiver_id = 1 ∧ t2.sender_id = 1
      ∧ t2.date = pairPrimary.date + 1
      ∧ (∀ c, orZero (getCur t2 c) = - orZero (getCur pairPrimary c)) :=
  C2_amended 7 1 2 ['2', 'g'] ['p', 'a', 'y'] true ⟨[], 0, 0⟩
    ⟨[pairPrimary, pairMirror], 2, 2⟩ pairPrimary (some pairMirror)
    (by decide) (by decide)

/-- C4 counterexample: the amount string `"2g,2g"` does not fail — the call succeeds
and one record (gold = 2) is stored, so no `DuplicateDenomination` error exists. -/
theorem C4_counterexample :
    (process_transaction 7 0 0 ['2', 'g', ',', '2', 'g'] ['x'] true ⟨[], 0, 0⟩).2
        = .ok { _id := 0, date := 0, user_id := 7, receiver_id := 0, sender_id := 0,
                description := ['x'], confirmed := true, platinum := none, gold := some 2,
                electrum := none, silver := none, copper := none } none
  ∧ (process_transaction 7 0 0 ['2', 'g', ',', '2', 'g'] ['x'] true
        ⟨[], 0, 0⟩).1.transactions.length = 1 := by
  decide

/-- C4 (amended): an amount string in which the same denomination letter appears
more than once is not rejected; the call succeeds, a record is stored, and the
stored amount for that denomination is the amount of the last such entry
(`"2g,3g"` stores gold = 3, not an error and not 5). -/
theorem C4_amended (author : Int) (desc : PyStr) (conf : Bool) (st : BankState)
    (hdesc : desc ≠ []) :
    ∃ t, process_transaction author 0 0 ['2', 'g', ',', '3', 'g'] desc conf st
        = ({ transactions := st.transactions ++ [t],
             nextId := st.nextId + 1, clock := st.clock + 1 }, .ok t none)
      ∧ t.gold = some 3 := by
  refine ⟨{ _id := st.nextId, date := st.clock, user_id := author, receiver_id := 0,
            sender_id := 0, description := desc, confirmed := conf, platinum := none,
            gold := some 3, electrum := none, silver := none, copper := none }, ?_, rfl⟩
  unfold process_transaction
  rw [if_neg (by simp [hdesc])]
  rfl

/-- C4 witness: the duplicate-gold string `"2g,3g"` for the bank's own account on an
empty store yields exactly the record `dupRecord`, whose gold amount is 3. -/
theorem C4_witness :
    ∃ t, process_transaction 7 0 0 ['2', 'g', ',', '3', 'g'] ['x'] true ⟨[], 0, 0⟩
        = ({ transactions := [] ++ [t], nextId := 0 + 1, clock := 0 + 1 }, .ok t none)
      ∧ t.gold = some 3 :=
  C4_amended 7 ['x'] true ⟨[], 0, 0⟩ (by decide)

/-- C5 counterexample: an unprivileged call (created pending, `confirm = False`) with
the negative amount string `"-2g,-5s"` succeeds and stores a record with
gold = −2, instead of failing with `NegativeAmountNotAllowed`. -/
theorem C5_counterexample :
    (process_transaction 7 7 7 ['-', '2', 'g', ',', '-', '5', 's'] ['d'] false
        ⟨[], 0, 0⟩).1.transactions.map (fun t => (t.confirmed, t.gold, t.silver))
      = [(false, some (-2), some (-5))] := by
  decide

/-- C5 (amended): only the `account send` path rejects amount strings containing a
minus sign, before any write; `process_transaction` itself applies no negativity
check, so the same negative amount string succeeds whether the call is privileged
(`confirm = true`) or not (`confirm = false`), storing the negative amounts. -/
theorem C5_amended :
    (∀ (author receiver : Int) (ts desc : PyStr) (users : List Int) (st : BankState),
        '-' ∈ ts →
        account_send_money author receiver ts desc users st = (st, some .onlyPositive))
  ∧ (∀ (author : Int) (desc : PyStr) (conf : Bool) (st : BankState), desc ≠ [] →
        ∃ t, process_transaction author 7 7 ['-', '2', 'g', ',', '-', '5', 's'] desc conf st
            = ({ transactions := st.transactions ++ [t],
                 nextId := st.nextId + 1, clock := st.clock + 1 }, .ok t none)
          ∧ t.gold = some (-2) ∧ t.silver = some (-5) ∧ t.confirmed = conf) := by
  constructor
  · intro author receiver ts desc users st hts
    unfold account_send_money
    rw [if_pos hts]
  · intro author desc conf st hdesc
    refine ⟨{ _id := st.nextId, date := st.clock, user_id := author, receiver_id := 7,
              sender_id := 7, description := desc, confirmed := conf, platinum := none,
              gold := some (-2), electrum := none, silver := some (-5), copper := none },
            ?_, rfl, rfl, rfl⟩
    unfold process_transaction
    rw [if_neg (by simp [hdesc])]
    rfl

/-- C5 witness: the guard of `account send` rejects `"-2g"` unchanged-state, and the
unprivileged engine call stores `"-2g,-5s"` as a pending record. -/
theorem C5_witness :
    account_send_money 7 9 ['-', '2', 'g'] ['d'] [9] ⟨[], 0, 0⟩
        = (⟨[], 0, 0⟩, some .onlyPositive)
  ∧ ∃ t, process_transaction 7 7 7 ['-', '2', 'g', ',', '-', '5', 's'] ['d'] false ⟨[], 0, 0⟩
        = ({ transactions := ([] : List TransactionData) ++ [t],
             nextId := 0 + 1, clock := 0 + 1 }, .ok t none)
      ∧ t.gold = some (-2) ∧ t.silver = some (-5) ∧ t.confirmed = false :=
  ⟨C5_amended.1 7 9 ['-', '2', 'g'] ['d'] [9] ⟨[], 0, 0⟩ (by decide),
   C5_amended.2 7 ['d'] false ⟨[], 0, 0⟩ (by decide)⟩

/-- C10: an `account send` whose receiver has no row in the user table fails with an
error and leaves the ledger unchanged, even though `process_transaction` itself
performs no account-existence check (it succeeds for any receiver id, which is
what otherwise brings an account into implicit existence). -/
theorem C10_send_requires_receiver_account :
    (∀ (author receiver : Int) (ts desc : PyStr) (users : List Int) (st : BankState),
        receiver ∉ users →
        (account_send_money author receiver ts desc users st).1 = st
      ∧ ∃ e, (account_send_money author receiver ts desc users st).2 = some e)
  ∧ (∀ (author receiver : Int) (desc : PyStr) (conf : Bool) (st : BankState), desc ≠ [] →
        ∃ t m, (process_transaction author receiver receiver ['2', 'g'] desc conf st).2
            = .ok t m) := by
  constructor
  · intro author receiver ts desc users st hru
    unfold account_send_money
    by_cases hts : '-' ∈ ts
    · rw [if_pos hts]
      exact ⟨rfl, ⟨_, rfl⟩⟩
    · rw [if_neg hts, if_neg hru]
      exact ⟨rfl, ⟨_, rfl⟩⟩
  · intro author receiver desc conf st hdesc
    refine ⟨{ _id := st.nextId, date := st.clock, user_id := author, receiver_id := receiver,
              sender_id := receiver, description := desc, confirmed := conf, platinum := none,
              gold := some 2, electrum := none, silver := none, copper := none }, none, ?_⟩
    unfold process_transaction
    rw [if_neg (by simp [hdesc])]
    rw [show List.find? (fun c => !(validChar c)) ['2', 'g'] = none from rfl]
    rw [show applyCoinStrings (pySplit ',' ['2', 'g'])
          (newRecord st.nextId st.clock author receiver receiver desc conf)
        = ({ _id := st.nextId, date := st.clock, user_id := author, receiver_id := receiver,
             sender_id := receiver, description := desc, confirmed := conf, platinum := none,
             gold := some 2, electrum := none, silver := none, copper := none }, none) from rfl]
    dsimp only
    rw [if_neg (show ¬(receiver ≠ receiver) by simp)]

/-- C10 witness: sending `"2g"` to account 9, which has no user row, changes nothing
and errors; the engine itself accepts receiver 9 without any account check. -/
theorem C10_witness :
    ((account_send_money 7 9 ['2', 'g'] ['d'] [4] ⟨[], 0, 0⟩).1 = ⟨[], 0, 0⟩
      ∧ ∃ e, (account_send_money 7 9 ['2', 'g'] ['d'] [4] ⟨[], 0, 0⟩).2 = some e)
  ∧ ∃ t m, (process_transaction 7 9 9 ['2', 'g'] ['d'] false ⟨[], 0, 0⟩).2 = .ok t m :=
  ⟨C10_send_requires_receiver_account.1 7 9 ['2', 'g'] ['d'] [4] ⟨[], 0, 0⟩ (by decide),
   C10_send_requires_receiver_account.2 7 9 ['d'] false ⟨[], 0, 0⟩ (by decide)⟩

theorem applyCoinStrings_lastAmount (es : List PyStr) (t : TransactionData)
    (h : (applyCoinStrings es t).2 = none) (c : Currency) :
    getCur ((applyCoinStrings es t).1) c
      = match lastAmount es c with
        | some a => some a
        | none => getCur t c := by
  induction es generalizing t with
  | nil => simp [applyCoinStrings, lastAmount]
  | cons cs rest ih =>
    rcases hpi : pyInt cs.dropLast with _ | amount
    · simp [applyCoinStrings, hpi] at h
    · rcases hgl : cs.getLast? with _ | ch
      · simp [applyCoinStrings, hpi, hgl] at h
      · rcases hcc : charToCurrency ch with _ | cur
        · simp [applyCoinStrings, hpi, hgl, hcc] at h
        · have hpe : parseEntry cs = some (amount, cur) := by
            simp [parseEntry, hpi, hgl, hcc]
          simp only [applyCoinStrings, hpi, hgl, hcc] at h ⊢
          rw [ih _ h]
          simp only [lastAmount, hpe]
          rcases hla : lastAmount rest c with _ | a
          · rw [getCur_setCur]
            by_cases hcur : cur = c <;> simp [hcur]
          · simp

/-- C6 counterexample: on a two-record ledger for account 0 (ids 0 then 1), the
history page `offset = 0, limit = 10` is `[0, 1]` — oldest first — whereas the
claim requires the returned sequence to be ordered newest-first, `[1, 0]`. -/
theorem C6_counterexample :
    (print_log 0 10 0 sampleTwoRecords).map (fun t => t._id) = [0, 1]
  ∧ ([0, 1] : List Nat) ≠ [1, 0] := by
  decide

/-- C6 (amended): the call `history(account, offset, limit)` returns at most `limit` records,
all belonging to the account; it selects them newest-first, skipping the first
`offset` matches, but presents the selected page in ascending (oldest-first)
creation order; an `offset` at or beyond the number of matching records yields the
empty sequence, not an error. The selection window is pinned down by the last
conjunct: on any store whose rows are in id order (as every reachable store is),
the page is exactly `offset`-drop-then-`limit`-take of the newest-first match
list, reversed for display. -/
theorem C6_amended (start num : Nat) (account_nr : Int) (st : BankState) :
    (print_log start num account_nr st).length ≤ num
  ∧ ((st.transactions.filter (fun t => t.receiver_id == account_nr)).length ≤ start →
      print_log start num account_nr st = [])
  ∧ List.Pairwise tle (print_log start num account_nr st)
  ∧ (∀ t ∈ print_log start num account_nr st, t.receiver_id = account_nr)
  ∧ (List.Pairwise tle st.transactions →
      print_log start num account_nr st
        = (((((st.transactions.filter
              (fun t => t.receiver_id == account_nr)).reverse).drop start).take
                num).reverse)) := by
  simp only [print_log]
  refine ⟨?_, ?_, ?_, ?_, ?_⟩
  · rw [List.length_reverse]
    exact List.length_take_le num _
  · intro hle
    have hlen : (((List.insertionSort tle (st.transactions.filter
        (fun t => t.receiver_id == account_nr))).reverse).take (num + start)).length
          ≤ start := by
      rw [List.length_take]
      refine le_trans (min_le_right _ _) ?_
      rw [List.length_reverse, (List.perm_insertionSort tle _).length_eq]
      exact hle
    rw [List.drop_eq_nil_of_le hlen]
    simp
  · apply List.pairwise_reverse.mpr
    have hdesc : ((List.insertionSort tle (st.transactions.filter
        (fun t => t.receiver_id == account_nr))).reverse).Pairwise (fun a b => tle b a) :=
      List.pairwise_reverse.mpr (List.sorted_insertionSort tle _)
    exact ((hdesc.sublist (List.take_sublist _ _)).sublist
      (List.drop_sublist _ _)).sublist (List.take_sublist _ _)
  · intro t ht
    rw [List.mem_reverse] at ht
    have h1 := List.take_subset _ _ ht
    have h2 := List.drop_subset _ _ h1
    have h3 := List.take_subset _ _ h2
    rw [List.mem_reverse] at h3
    have h4 := (List.perm_insertionSort tle _).mem_iff.mp h3
    have h5 := List.of_mem_filter h4
    exact beq_iff_eq.mp h5
  · intro hsorted
    have hm : List.Pairwise tle
        (st.transactions.filter (fun t => t.receiver_id == account_nr)) :=
      hsorted.sublist (List.filter_sublist _)
    rw [List.Sorted.insertionSort_eq hm]
    congr 1
    rw [Nat.add_comm num start, ← List.take_drop, List.take_take, Nat.min_self]

/-- C6 witness: on the two-record ledger, an offset of 5 (beyond the 2 matching
records) yields the empty sequence, and with offset 1 the page is exactly the
newest-first match list with its first element skipped, reversed for display. -/
theorem C6_witness :
    print_log 5 10 0 sampleTwoRecords = []
  ∧ print_log 1 10 0 sampleTwoRecords
      = (((((sampleTwoRecords.transactions.filter
            (fun t => t.receiver_id == 0)).reverse).drop 1).take 10).reverse) :=
  ⟨(C6_amended 5 10 0 sampleTwoRecords).2.1 (by decide),
   (C6_amended 1 10 0 sampleTwoRecords).2.2.2.2 (by decide)⟩

/-- C8: when a successful `create_transaction` processes an amount string in which
the same denomination letter occurs in several entries, the stored primary
record's amount for that denomination is the amount of the last such entry in
the string — later entries overwrite earlier ones instead of accumulating or
being rejected. -/
theorem C8_last_duplicate_entry_wins (author sender receiver : Int) (ts desc : PyStr)
    (conf : Bool) (st st2 : BankState) (t1 : TransactionData) (m : Option TransactionData)
    (h : process_transaction author sender receiver ts desc conf st = (st2, .ok t1 m))
    (c : Currency) (a : Int)
    (hla : lastAmount (pySplit ',' ts) c = some a) :
    getCur t1 c = some a := by
  unfold process_transaction at h
  split at h
  · exact absurd h (by simp)
  · split at h
    · exact absurd h (by simp)
    · rcases hap : applyCoinStrings (pySplit ',' ts)
          (newRecord st.nextId st.clock author receiver sender desc conf) with ⟨u1, e2⟩
      rw [hap] at h
      cases e2 with
      | some e => simp at h
      | none =>
        dsimp only at h
        have hparts := applyCoinStrings_lastAmount (pySplit ',' ts)
          (newRecord st.nextId st.clock author receiver sender desc conf) (by rw [hap]) c
        rw [hap] at hparts
        dsimp only at hparts
        rw [hla] at hparts
        have hu : u1 = t1 := by
          split at h <;> (injection h with h1 h2; injection h2 with h21 h22)
        rw [← hu]
        exact hparts

/-- C8 witness: processing `"2g,3g"` stores gold = 3, the amount of the last gold
entry. -/
theorem C8_witness : getCur dupRecord .gold = some 3 :=
  C8_last_duplicate_entry_wins 7 0 0 ['2', 'g', ',', '3', 'g'] ['x'] true
    ⟨[], 0, 0⟩ ⟨[dupRecord], 1, 1⟩ dupRecord none (by decide) .gold 3 (by decide)

end DndBank
